import Mathlib

/-!
# sacloud/go-http : the retrying API client (`client.go`)

A shallow embedding of `client.go`: the retry decision `DefaultCheckRetryFunc`,
the defaulting step `Client.init`, the construction of the retrying client
`Client.httpClient`, and `Client.Do` with its header step, customization hook
and gzip adapter.

Conventions of the embedding

* a Go `string` is a Lean `String`; a byte is a `Nat` below 256;
* a Go `error` value is an `Error`; a nil error is `none`;
* a pointer that may be nil is an `Option`; a nil dereference or an index out
  of range (a Go panic) is the result `none` of the function concerned;
* `time.Duration` is an `Int` (nanoseconds), wrapped to 64 bits where the Go
  arithmetic can overflow;
* a request that Go mutates in place is passed and returned as a value.
-/

namespace GoHttp

/-! ## Errors, contexts, headers -/

/-- Go `error` values met by the client. -/
inductive Error where
  /-- The value `context.Canceled`. -/
  | canceled
  /-- The value `context.DeadlineExceeded`. -/
  | deadlineExceeded
  /-- The value `io.EOF`. -/
  | eof
  /-- The value `io.ErrUnexpectedEOF`. -/
  | unexpectedEOF
  /-- The value `gzip.ErrHeader`. -/
  | gzipHeader
  /-- The value `gzip.ErrChecksum`. -/
  | gzipChecksum
  /-- Any other error, identified by its message. -/
  | other (msg : String)
  deriving DecidableEq, Repr

/-- A `context.Context`, as far as the client observes it: the value of
`ctx.Err()`, nil until the context is cancelled or its deadline passes. -/
structure Context where
  Err : Option Error := none
  deriving DecidableEq, Repr

/-- A byte string. -/
abbrev Bytes := List Nat

/-- The type `http.Header`, a `map[string][]string`: a key is absent (`none`) or
bound to a slice of values. -/
abbrev Header := String → Option (List String)

/-- The empty header map. -/
def Header.empty : Header := fun _ => none

/-- Whether a byte is a valid header field byte (an RFC 7230 token character),
`validHeaderFieldByte` of `net/textproto`. -/
def validHeaderFieldByte (c : Char) : Bool :=
  c.isAlphanum || c ∈ ['!', '#', '$', '%', '&', '*', '+', '-', '.', '^', '_', '|', '~',
    Char.ofNat 39, Char.ofNat 96]

/-- The capitalisation loop of `canonicalMIMEHeaderKey`: the first letter and
every letter after a hyphen is upper case, every other letter lower case. -/
def canonicalLoop : Bool → List Char → List Char
  | _, [] => []
  | upper, c :: cs =>
    let c1 := if upper then c.toUpper else c.toLower
    c1 :: canonicalLoop (c1 == '-') cs

/-- The function `textproto.CanonicalMIMEHeaderKey`: a key holding a byte that
is not a valid header field byte is returned unchanged, any other key is
capitalised word by word. -/
def CanonicalMIMEHeaderKey (s : String) : String :=
  if s.data.all validHeaderFieldByte then String.mk (canonicalLoop true s.data) else s

/-- The method `Header.Get`: the first value bound to the canonical form of the
key, the empty string when there is none. -/
def Header.Get (h : Header) (key : String) : String :=
  match h (CanonicalMIMEHeaderKey key) with
  | some (v :: _) => v
  | _ => ""

/-- Update of a map at one key. -/
def Header.update (h : Header) (key : String) (vs : List String) : Header :=
  fun k => if k = key then some vs else h k

/-- The method `Header.Set`: the canonical key is bound to the single value. -/
def Header.Set (h : Header) (key value : String) : Header :=
  h.update (CanonicalMIMEHeaderKey key) [value]

/-- The method `Header.Add`: the value is appended to the values of the
canonical key. -/
def Header.Add (h : Header) (key value : String) : Header :=
  h.update (CanonicalMIMEHeaderKey key) ((h (CanonicalMIMEHeaderKey key)).getD [] ++ [value])

/-! ## Requests and responses -/

/-- An `io.ReadCloser` holding a request body: the bytes it yields and the error
its `Read` returns once they are exhausted (`none` for a clean `io.EOF`). -/
structure ReadCloser where
  data : Bytes
  err : Option Error := none
  deriving DecidableEq, Repr

/-- The parts of a `url.URL` the client and its hooks touch. -/
structure URL where
  Host : String := ""
  Path : String := ""
  RawQuery : String := ""
  deriving DecidableEq, Repr

/-- A `*http.Request`. -/
structure Request where
  ctx : Context := {}
  Method : String := "GET"
  URL : URL := {}
  Header : Header := Header.empty
  Body : Option ReadCloser := none

/-- The header of a gzip member (`gzip.Header`). -/
structure GzipHeader where
  Comment : List Nat := []
  Extra : Option Bytes := none
  ModTime : Nat := 0
  Name : List Nat := []
  OS : Nat := 0
  deriving DecidableEq, Repr

/-- A `*gzip.Reader` as `gzip.NewReader` returns it: the header of the first
member has been read, the rest of the underlying stream has not. -/
structure GzipReader where
  Header : GzipHeader
  rest : Bytes
  deriving DecidableEq, Repr

/-- The body of a response: the stream the transport returned, or a gzip reader
wrapped around it. -/
inductive Body where
  | raw (data : Bytes)
  | gzip (z : GzipReader)
  deriving DecidableEq, Repr

/-- A `*http.Response` with a body of type `β`. -/
structure ResponseWith (β : Type) where
  StatusCode : Int
  Header : Header := Header.empty
  Body : β

/-- A `*http.Response` as the transport returns it: the body is the stream of
bytes received. -/
abbrev Response := ResponseWith Bytes

/-- A `*http.Response` as `Client.Do` returns it: the body is the transport's
stream or a gzip reader around it. -/
abbrev ClientResponse := ResponseWith Body

/-- Status code `http.StatusServiceUnavailable`. -/
def StatusServiceUnavailable : Int := 503

/-- Status code `http.StatusLocked`. -/
def StatusLocked : Int := 423

/-- Status code `http.StatusTooManyRequests`. -/
def StatusTooManyRequests : Int := 429

/-! ## The retry decision -/

/-- The type of `Client.CheckRetryFunc`; the result `none` is a panic. -/
abbrev CheckRetry := Context → Option Response → Option Error → Option (Bool × Option Error)

/-- The variable `DefaultCheckRetryFunc` (client.go, lines 58 to 69). The
connectivity heuristic `retryablehttp.DefaultRetryPolicy`, which it calls on a
transport error, is the parameter `DefaultRetryPolicy`. -/
def DefaultCheckRetryFunc
    (DefaultRetryPolicy : Context → Option Response → Error → Bool × Option Error) :
    CheckRetry :=
  fun ctx resp err =>
    if ctx.Err ≠ none then
      some (false, ctx.Err)
    else
      match err with
      | some e => some (DefaultRetryPolicy ctx resp e)
      | none =>
        match resp with
        | none => none
        | some resp =>
          if resp.StatusCode = 0 ∨ resp.StatusCode = StatusServiceUnavailable
              ∨ resp.StatusCode = StatusLocked then
            some (true, none)
          else
            some (false, none)

/-! ## Basic authentication -/

/-- The bytes of a string (its UTF-8 encoding). -/
def stringBytes (s : String) : Bytes :=
  s.data.flatMap fun c => (String.utf8EncodeChar c).map UInt8.toNat

/-- The alphabet of `base64.StdEncoding`. -/
def base64Alphabet : List Char :=
  "ABCDEFGHIJKLMNOPQRSTUVWXYZabcdefghijklmnopqrstuvwxyz0123456789+/".data

/-- The character of a six-bit value. -/
def base64Char (n : Nat) : Char := base64Alphabet.getD n '='

/-- The function `base64.StdEncoding.EncodeToString`, padded with `=`. -/
def base64Encode : Bytes → List Char
  | a :: b :: c :: rest =>
    let v := a * 65536 + b * 256 + c
    base64Char (v / 262144) :: base64Char (v / 4096 % 64) :: base64Char (v / 64 % 64)
      :: base64Char (v % 64) :: base64Encode rest
  | [a, b] =>
    let v := a * 65536 + b * 256
    [base64Char (v / 262144), base64Char (v / 4096 % 64), base64Char (v / 64 % 64), '=']
  | [a] =>
    let v := a * 65536
    [base64Char (v / 262144), base64Char (v / 4096 % 64), '=', '=']
  | [] => []

/-- The function `basicAuth` of `net/http`: base64 of `username:password`. -/
def basicAuth (username password : String) : String :=
  String.mk (base64Encode (stringBytes (username ++ ":" ++ password)))

/-- The method `Request.SetBasicAuth`: sets the Authorization header. -/
def Request.SetBasicAuth (r : Request) (username password : String) : Request :=
  { r with Header := r.Header.Set "Authorization" ("Basic " ++ basicAuth username password) }

/-! ## The backoff installed by `Client.httpClient` -/

/-- A 64-bit signed integer: the value of an `Int` wrapped to `int64`. -/
def wrapInt64 (x : Int) : Int := (x + 2 ^ 63) % 2 ^ 64 - 2 ^ 63

/-- The value of a non-empty string of decimal digits. -/
def parseDigits : List Char → Nat → Option Nat
  | [], acc => some acc
  | c :: cs, acc => if c.isDigit then parseDigits cs (acc * 10 + (c.toNat - 48)) else none

/-- The call `strconv.ParseInt(s, 10, 64)`: an optional sign and decimal digits,
`none` (an error) on any other syntax or outside the `int64` range. -/
def ParseInt (s : String) : Option Int :=
  let signed : Bool × List Char :=
    match s.data with
    | '+' :: ds => (false, ds)
    | '-' :: ds => (true, ds)
    | ds => (false, ds)
  match signed.2 with
  | [] => none
  | ds =>
    match parseDigits ds 0 with
    | none => none
    | some n =>
      let v : Int := if signed.1 then -(n : Int) else (n : Int)
      if -(2 : Int) ^ 63 ≤ v ∧ v < 2 ^ 63 then some v else none

/-- One second, as a `time.Duration`. -/
def Second : Int := 1000000000

/-- The exponential part of `retryablehttp.DefaultBackoff`:

    mult := math.Pow(2, float64(attemptNum)) * float64(min)
    sleep := time.Duration(mult)
    if float64(sleep) != mult || sleep > max {
        sleep = max
    }
    return sleep

The product is taken exactly, which is what the floating point computation
yields for `0 < min < 2 ^ 53` nanoseconds (a power of two scales a float64
without rounding); a product outside the `int64` range fails the test
`float64(sleep) != mult` and gives `max`. -/
def exponentialBackoff (min max : Int) (attemptNum : Nat) : Int :=
  let mult : Int := 2 ^ attemptNum * min
  if -(2 : Int) ^ 63 ≤ mult ∧ mult < 2 ^ 63 ∧ mult ≤ max then mult else max

/-- The function `retryablehttp.DefaultBackoff`, which `Client.httpClient`
installs as `Backoff`. It belongs to the dependency hashicorp/go-retryablehttp
and is embedded from its source (releases v0.7.0 to v0.7.4):

    if resp != nil {
        if resp.StatusCode == http.StatusTooManyRequests ||
            resp.StatusCode == http.StatusServiceUnavailable {
            if s, ok := resp.Header["Retry-After"]; ok {
                if sleep, err := strconv.ParseInt(s[0], 10, 64); err == nil {
                    return time.Second * time.Duration(sleep)
                }
            }
        }
    }

followed by the exponential part. A 429 or 503 response with a `Retry-After`
header holding an integer number of seconds decides the wait; any other case is
the exponential backoff. The result `none` is the panic of `s[0]` on a
`Retry-After` key bound to an empty slice. -/
def DefaultBackoff (min max : Int) (attemptNum : Nat) (resp : Option Response) : Option Int :=
  let expo := some (exponentialBackoff min max attemptNum)
  match resp with
  | none => expo
  | some resp =>
    if resp.StatusCode = StatusTooManyRequests ∨ resp.StatusCode = StatusServiceUnavailable then
      match resp.Header "Retry-After" with
      | none => expo
      | some [] => none
      | some (s0 :: _) =>
        match ParseInt s0 with
        | some sleep => some (wrapInt64 (Second * sleep))
        | none => expo
    else expo

/-! ## The client -/

/-- What the package takes from its build: the constant `Version` (declared in
another file of the package) and `runtime.GOOS`, `runtime.GOARCH`. -/
structure Build where
  Version : String
  GOOS : String
  GOARCH : String

/-- The variable `DefaultUserAgent`. -/
def DefaultUserAgent (b : Build) : String :=
  "go-http/v" ++ b.Version ++ " (" ++ b.GOOS ++ "/" ++ b.GOARCH
    ++ "; +https://github.com/sacloud/go-http)"

/-- The variable `DefaultAcceptLanguage`. -/
def DefaultAcceptLanguage : String := ""

/-- The variable `DefaultRetryMax`. -/
def DefaultRetryMax : Int := 10

/-- The variable `DefaultRetryWaitMin`. -/
def DefaultRetryWaitMin : Int := 1 * Second

/-- The variable `DefaultRetryWaitMax`. -/
def DefaultRetryWaitMax : Int := 64 * Second

/-- An `*http.Client`: the transport, answering the n-th round trip of an
exchange with a response or a transport error. -/
structure HTTPClient where
  RoundTrip : Nat → Request → Except Error Response

/-- The type `RequestCustomizer`: the hook mutates the request and returns an
error or nil. -/
abbrev RequestCustomizer := Request → Request × Option Error

/-- The struct `Client`. -/
structure Client where
  AccessToken : String
  AccessTokenSecret : String
  UserAgent : String := ""
  AcceptLanguage : String := ""
  Gzip : Bool := false
  CheckRetryFunc : Option CheckRetry := none
  RetryMax : Int := 0
  RetryWaitMin : Int := 0
  RetryWaitMax : Int := 0
  HTTPClient : Option HTTPClient := none
  RequestCustomizer : Option RequestCustomizer := none

/-- The struct `retryablehttp.Client`, with the fields `Client.httpClient` sets. -/
structure RetryableClient where
  HTTPClient : Option HTTPClient
  RetryWaitMin : Int
  RetryWaitMax : Int
  RetryMax : Int
  CheckRetry : Option CheckRetry
  Backoff : Int → Int → Nat → Option Response → Option Int

/-- The collaborators of the client outside `client.go`. -/
structure Deps where
  /-- The build constants. -/
  build : Build
  /-- The function `retryablehttp.DefaultRetryPolicy`. -/
  DefaultRetryPolicy : Context → Option Response → Error → Bool × Option Error
  /-- The method `retryablehttp.Client.Do`: the retry loop around the transport,
  returning the final response or an error. -/
  retryDo : RetryableClient → Request → Except Error Response

/-- The function `NewClient`. -/
def NewClient (token secret : String) : Client :=
  { AccessToken := token, AccessTokenSecret := secret }

/-- The method `Client.init`: every unset field takes its default. -/
def Client.init (d : Deps) (c : Client) : Client :=
  { c with
    UserAgent := if c.UserAgent = "" then DefaultUserAgent d.build else c.UserAgent
    AcceptLanguage := if c.AcceptLanguage = "" then DefaultAcceptLanguage else c.AcceptLanguage
    CheckRetryFunc :=
      if c.CheckRetryFunc.isNone then some (DefaultCheckRetryFunc d.DefaultRetryPolicy)
      else c.CheckRetryFunc
    RetryMax := if c.RetryMax = 0 then DefaultRetryMax else c.RetryMax
    RetryWaitMin := if c.RetryWaitMin = 0 then DefaultRetryWaitMin else c.RetryWaitMin
    RetryWaitMax := if c.RetryWaitMax = 0 then DefaultRetryWaitMax else c.RetryWaitMax }

/-- The method `Client.httpClient`. -/
def Client.httpClient (c : Client) : RetryableClient :=
  { HTTPClient := c.HTTPClient
    RetryWaitMin := c.RetryWaitMin
    RetryWaitMax := c.RetryWaitMax
    RetryMax := c.RetryMax
    CheckRetry := c.CheckRetryFunc
    Backoff := DefaultBackoff }

/-- The statement `if req.Header.Get(key) == "" && cond { req.Header.Add(key, value) }`
of the header step. -/
def addIfUnset (cond : Bool) (key value : String) (req : Request) : Request :=
  if req.Header.Get key = "" ∧ cond = true then
    { req with Header := req.Header.Add key value }
  else req

/-- The header step of `Client.Do` (client.go, lines 163 to 182), on a client
that `init` has filled: Basic authentication, then each default header. -/
def Client.setHeaders (c : Client) (req : Request) : Request :=
  let req := req.SetBasicAuth c.AccessToken c.AccessTokenSecret
  let req := addIfUnset req.Body.isSome "Content-Type" "application/json" req
  let req := addIfUnset c.Gzip "Accept-Encoding" "gzip" req
  let req := addIfUnset true "X-Requested-With" "XMLHttpRequest" req
  let req := addIfUnset true "X-Sakura-Bigint-As-Int" "1" req
  let req := addIfUnset true "User-Agent" c.UserAgent req
  let req := addIfUnset (c.AcceptLanguage != "") "Accept-Language" c.AcceptLanguage req
  req

/-- The function `retryablehttp.FromRequest`: the body, when there is one, is
read to its end into a buffer that each attempt replays; an error of that read
is returned. -/
def FromRequest (req : Request) : Except Error Request :=
  match req.Body with
  | none => .ok req
  | some body =>
    match body.err with
    | some e => .error e
    | none => .ok req

/-! ## The gzip reader -/

/-- One bit of the CRC-32 (IEEE) shift register, reflected polynomial
`0xedb88320`. -/
def crc32Bit (x : Nat) : Nat :=
  if x % 2 = 1 then (x / 2) ^^^ 0xedb88320 else x / 2

/-- One byte through the CRC-32 shift register. -/
def crc32Byte (crc byte : Nat) : Nat :=
  crc32Bit (crc32Bit (crc32Bit (crc32Bit (crc32Bit (crc32Bit (crc32Bit (crc32Bit
    (crc ^^^ byte))))))))

/-- The function `crc32.Update` with the IEEE table. -/
def crc32Update (crc : Nat) (data : Bytes) : Nat :=
  (data.foldl crc32Byte (crc ^^^ 0xffffffff)) ^^^ 0xffffffff

/-- The function `crc32.ChecksumIEEE`. -/
def ChecksumIEEE (data : Bytes) : Nat := crc32Update 0 data

/-- The function `noEOF` of `compress/gzip`. -/
def noEOF : Error → Error
  | .eof => .unexpectedEOF
  | e => e

/-- The call `io.ReadFull(z.r, buf[:n])` on a stream holding `s`: the first `n`
bytes and the rest, `io.EOF` on an empty stream, `io.ErrUnexpectedEOF` on a
short one. -/
def readFull (n : Nat) (s : Bytes) : Except Error (Bytes × Bytes) :=
  if n ≤ s.length then .ok (s.take n, s.drop n)
  else if s.isEmpty then .error .eof
  else .error .unexpectedEOF

/-- The loop of `Reader.readString`, at index `i` of the 512-byte buffer: the
bytes up to the NUL terminator (collected in reverse in `acc`) and the rest of
the stream. -/
def readStringLoop : Nat → Bytes → Bytes → Except Error (Bytes × Bytes)
  | i, _, [] => if 512 ≤ i then .error .gzipHeader else .error .eof
  | i, acc, b :: rest =>
    if 512 ≤ i then .error .gzipHeader
    else if b = 0 then .ok (acc.reverse, rest)
    else readStringLoop (i + 1) (b :: acc) rest

/-- The method `Reader.readString`: the string, the bytes read (terminator
included, for the digest) and the rest of the stream. -/
def readString (s : Bytes) : Except Error (Bytes × Bytes) :=
  readStringLoop 0 [] s

/-- Little-endian value of a byte string. -/
def leUint : Bytes → Nat
  | [] => 0
  | b :: bs => b + 256 * leUint bs

/-- The method `Reader.readHeader` of the standard library package
`compress/gzip` (gunzip.go): the ten fixed bytes (magic `1f 8b`, method 8,
flags, time, extra flags, system), then the optional extra field, name, comment
and header checksum that the flags announce. An empty stream is `io.EOF`, a
short one `io.ErrUnexpectedEOF`, a wrong magic, method or header checksum
`gzip.ErrHeader`. Returns the header and the rest of the stream. -/
def readHeader (s : Bytes) : Except Error (GzipHeader × Bytes) :=
  match readFull 10 s with
  | .error e => .error e
  | .ok (buf, s) =>
    if buf.getD 0 0 ≠ 0x1f ∨ buf.getD 1 0 ≠ 0x8b ∨ buf.getD 2 0 ≠ 8 then .error .gzipHeader
    else
      let flg := buf.getD 3 0
      let hdr : GzipHeader := { ModTime := leUint ((buf.drop 4).take 4), OS := buf.getD 9 0 }
      let digest := ChecksumIEEE buf
      -- flagExtra
      let extra : Except Error (GzipHeader × Nat × Bytes) :=
        if flg / 4 % 2 = 1 then
          match readFull 2 s with
          | .error e => .error (noEOF e)
          | .ok (len, s) =>
            let digest := crc32Update digest len
            match readFull (leUint len) s with
            | .error e => .error (noEOF e)
            | .ok (data, s) => .ok ({ hdr with Extra := some data }, crc32Update digest data, s)
        else .ok (hdr, digest, s)
      match extra with
      | .error e => .error e
      | .ok (hdr, digest, s) =>
        -- flagName
        let name : Except Error (GzipHeader × Nat × Bytes) :=
          if flg / 8 % 2 = 1 then
            match readString s with
            | .error e => .error (noEOF e)
            | .ok (str, s) => .ok ({ hdr with Name := str }, crc32Update digest (str ++ [0]), s)
          else .ok (hdr, digest, s)
        match name with
        | .error e => .error e
        | .ok (hdr, digest, s) =>
          -- flagComment
          let comment : Except Error (GzipHeader × Nat × Bytes) :=
            if flg / 16 % 2 = 1 then
              match readString s with
              | .error e => .error (noEOF e)
              | .ok (str, s) =>
                .ok ({ hdr with Comment := str }, crc32Update digest (str ++ [0]), s)
            else .ok (hdr, digest, s)
          match comment with
          | .error e => .error e
          | .ok (hdr, digest, s) =>
            -- flagHdrCrc
            if flg / 2 % 2 = 1 then
              match readFull 2 s with
              | .error e => .error (noEOF e)
              | .ok (sum, s) =>
                if leUint sum ≠ digest % 65536 then .error .gzipHeader else .ok (hdr, s)
            else .ok (hdr, s)

/-- The function `gzip.NewReader` on a stream holding `s`: `NewReader` calls
`Reset`, which calls `readHeader` and returns its error. So the header of the
first member is read at once, and the call fails when that header is absent or
malformed; the compressed data behind the header is left unread. -/
def NewReader (s : Bytes) : Except Error GzipReader :=
  match readHeader s with
  | .error e => .error e
  | .ok (hdr, rest) => .ok { Header := hdr, rest := rest }

/-- Reading a response body to its end (`io.ReadAll`). A raw stream yields its
bytes. A gzip reader inflates what follows the header it has read; that
decoder of `compress/gzip` and `compress/flate` (deflate blocks, trailer
check, further members) is the parameter `inflate`. -/
def Body.ReadAll (inflate : Bytes → Except Error Bytes) : Body → Except Error Bytes
  | .raw data => .ok data
  | .gzip z => inflate z.rest

/-! ## `Client.Do` -/

/-- What a call of `Client.Do` leaves behind: the receiver after `init`, the
caller's request after the in-place changes, the calls made to the retrying
client (each with the request handed to it), and the returned pair: a response
with a nil error, or a nil response with an error. -/
structure DoResult where
  client : Client
  req : Request
  calls : List (RetryableClient × Request)
  ret : Except Error ClientResponse

/-- The method `Client.Do` (client.go, lines 160 to 213). -/
def Client.Do (d : Deps) (c : Client) (req : Request) : DoResult :=
  let c := c.init d
  -- set headers
  let req := c.setHeaders req
  let customized : Request × Option Error :=
    match c.RequestCustomizer with
    | some customizer => customizer req
    | none => (req, none)
  match customized with
  | (req, some err) => { client := c, req := req, calls := [], ret := .error err }
  | (req, none) =>
    match FromRequest req with
    | .error err => { client := c, req := req, calls := [], ret := .error err }
    | .ok request =>
      let client := c.httpClient
      -- API call
      match d.retryDo client request with
      | .error err => { client := c, req := req, calls := [(client, request)], ret := .error err }
      | .ok resp =>
        if c.Gzip = true ∧ resp.Header.Get "Content-Encoding" = "gzip" then
          match NewReader resp.Body with
          | .error err =>
            { client := c, req := req, calls := [(client, request)], ret := .error err }
          | .ok body =>
            { client := c, req := req, calls := [(client, request)],
              ret := .ok { StatusCode := resp.StatusCode, Header := resp.Header,
                           Body := .gzip body } }
        else
          { client := c, req := req, calls := [(client, request)],
            ret := .ok { StatusCode := resp.StatusCode, Header := resp.Header,
                         Body := .raw resp.Body } }

/-- A deflate stream made of stored blocks (RFC 1951, block type 0): the data
of the blocks up to the final one, and the bytes that follow. A block of another
type is not decoded here. -/
def storedBlocks : Nat → Bytes → Except Error (Bytes × Bytes)
  | 0, _ => .error .unexpectedEOF
  | fuel + 1, h :: l0 :: l1 :: n0 :: n1 :: s =>
    if h / 2 % 4 ≠ 0 then .error (.other "flate: block type not decoded")
    else if n0 + 256 * n1 ≠ (l0 + 256 * l1) ^^^ 0xffff then
      .error (.other "flate: corrupt input")
    else
      match readFull (l0 + 256 * l1) s with
      | .error _ => .error .unexpectedEOF
      | .ok (data, s) =>
        if h % 2 = 1 then .ok (data, s)
        else
          match storedBlocks fuel s with
          | .error e => .error e
          | .ok (more, s) => .ok (data ++ more, s)
  | _ + 1, _ => .error .unexpectedEOF

/-- A sample decoder for what follows a gzip member header: a deflate stream of
stored blocks, then the trailer (CRC-32 and length of the data, little-endian),
checked as `gzip.Reader.Read` checks it, at the end of the stream. -/
def inflateStored (s : Bytes) : Except Error Bytes :=
  match storedBlocks s.length s with
  | .error e => .error e
  | .ok (data, trailer) =>
    if trailer.length < 8 then .error .unexpectedEOF
    else if leUint (trailer.take 4) ≠ ChecksumIEEE data
        ∨ leUint ((trailer.drop 4).take 4) ≠ data.length % 2 ^ 32 then
      .error .gzipChecksum
    else if 8 < trailer.length then .error (.other "gzip: further member not decoded")
    else .ok data

/-! ## Auxiliary definitions for the statements -/

/-- What the guarded `Add` of the header step does to the values of its key. -/
def addValue (cond : Bool) (value : String) : Option (List String) → Option (List String)
  | some (v :: vs) => if v = "" ∧ cond = true then some (v :: vs ++ [value]) else some (v :: vs)
  | some [] => if cond = true then some [value] else some []
  | none => if cond = true then some [value] else none

/-- Whether a header is bound to values of which the first is the empty
string: `Header.Get` reads it as unset, `Header.Add` appends to it. -/
def emptyFirst : Option (List String) → Bool
  | some (v :: _) => v == ""
  | _ => false

/-! ## Sample inputs -/

/-- A build of the package. -/
def sampleBuild : Build := { Version := "0.1.0", GOOS := "linux", GOARCH := "amd64" }

/-- Collaborators answering every exchange with the given response. -/
def depsAnswering (resp : Response) : Deps :=
  { build := sampleBuild
    DefaultRetryPolicy := fun _ _ _ => (true, none)
    retryDo := fun _ _ => .ok resp }

/-- A server answering 200 with the body `ok`. -/
def sampleDeps : Deps := depsAnswering { StatusCode := 200, Body := [111, 107] }

/-- A client whose customizer sets its own Authorization header. -/
def bearerClient : Client :=
  { AccessToken := "token", AccessTokenSecret := "secret",
    RequestCustomizer := some fun r =>
      ({ r with Header := r.Header.Set "Authorization" "Bearer x" }, none) }

/-- A client whose customizer sets the query string, as in
`TestClient_Do_RequestCustomizer`. -/
def queryClient : Client :=
  { AccessToken := "token", AccessTokenSecret := "secret",
    RequestCustomizer := some fun r =>
      ({ r with URL := { r.URL with RawQuery := "foo=bar" } }, none) }

/-- A client whose customizer fails. -/
def failingClient : Client :=
  { AccessToken := "token", AccessTokenSecret := "secret",
    RequestCustomizer := some fun r => (r, some (Error.other "customizer failed")) }

/-- A client with credentials and a user agent of its own. -/
def agentClient : Client :=
  { AccessToken := "token", AccessTokenSecret := "secret", UserAgent := "sacloud-test/1.0" }

/-- A request with a body of zero length (`http.NoBody`) and no header. -/
def emptyBodyRequest : Request := { Method := "POST", Body := some { data := [] } }

/-- A request with a body and no header. -/
def jsonRequest : Request := { Method := "POST", Body := some { data := [123, 125] } }

/-- A request whose caller set the Content-Type. -/
def textRequest : Request :=
  { Method := "POST", Body := some { data := [104, 105] },
    Header := Header.empty.Set "Content-Type" "text/plain" }

/-- A request whose caller set the X-Requested-With header to the empty string. -/
def blankMarkerRequest : Request := { Header := Header.empty.Set "X-Requested-With" "" }

/-- A client with Gzip enabled. -/
def gzipClient : Client :=
  { AccessToken := "token", AccessTokenSecret := "secret", Gzip := true }

/-- A server answering 200 with the given body, declared as gzip. -/
def gzipDeps (body : Bytes) : Deps :=
  depsAnswering
    { StatusCode := 200, Header := Header.empty.Set "Content-Encoding" "gzip", Body := body }

/-- A gzip member header followed by a stored block whose length check fails. -/
def gzippedCorrupt : Bytes :=
  [0x1f, 0x8b, 8, 0, 0, 0, 0, 0, 0, 0xff, 0x01, 0x02, 0x00, 0x00, 0x00, 111, 107,
   0x47, 0xdd, 0xdc, 0x79, 2, 0, 0, 0]

/-- The first bytes of a zip archive: not a gzip header. -/
def badMagic : Bytes := [0x50, 0x4b, 3, 4, 20, 0, 0, 0, 8, 0, 0, 0]

theorem canonical_Authorization :
    CanonicalMIMEHeaderKey "Authorization" = "Authorization" := by decide

theorem canonical_ContentType :
    CanonicalMIMEHeaderKey "Content-Type" = "Content-Type" := by decide

theorem canonical_AcceptEncoding :
    CanonicalMIMEHeaderKey "Accept-Encoding" = "Accept-Encoding" := by decide

theorem canonical_XRequestedWith :
    CanonicalMIMEHeaderKey "X-Requested-With" = "X-Requested-With" := by decide

theorem canonical_XSakuraBigintAsInt :
    CanonicalMIMEHeaderKey "X-Sakura-Bigint-As-Int" = "X-Sakura-Bigint-As-Int" := by decide

theorem canonical_UserAgent :
    CanonicalMIMEHeaderKey "User-Agent" = "User-Agent" := by decide

theorem canonical_AcceptLanguage :
    CanonicalMIMEHeaderKey "Accept-Language" = "Accept-Language" := by decide

theorem canonical_ContentEncoding :
    CanonicalMIMEHeaderKey "Content-Encoding" = "Content-Encoding" := by decide

theorem addIfUnset_Header (cond : Bool) (key value : String) (req : Request)
    (hk : CanonicalMIMEHeaderKey key = key) (k : String) :
    (addIfUnset cond key value req).Header k
      = if k = key then addValue cond value (req.Header key) else req.Header k := by
  unfold addIfUnset Header.Get Header.Add Header.update
  rw [hk]
  by_cases hkk : k = key
  · subst hkk
    rcases h : req.Header k with _ | ⟨_ | ⟨v, vs⟩⟩ <;> cases cond <;> simp [addValue, h]
    by_cases hv : v = "" <;> simp [hv, h]
  · rcases h : req.Header key with _ | ⟨_ | ⟨v, vs⟩⟩ <;> cases cond <;> simp [hkk]
    by_cases hv : v = "" <;> simp [hv, hkk]

theorem addIfUnset_Body (cond : Bool) (key value : String) (req : Request) :
    (addIfUnset cond key value req).Body = req.Body := by
  unfold addIfUnset
  split <;> rfl

theorem SetBasicAuth_Header (req : Request) (u p k : String) :
    (req.SetBasicAuth u p).Header k
      = if k = "Authorization" then some ["Basic " ++ basicAuth u p] else req.Header k := by
  simp [Request.SetBasicAuth, Header.Set, Header.update, canonical_Authorization]

/-- The header step, key by key. -/
theorem setHeaders_Header (c : Client) (req : Request) (k : String) :
    (c.setHeaders req).Header k =
      if k = "Authorization" then
        some ["Basic " ++ basicAuth c.AccessToken c.AccessTokenSecret]
      else if k = "Content-Type" then
        addValue req.Body.isSome "application/json" (req.Header k)
      else if k = "Accept-Encoding" then addValue c.Gzip "gzip" (req.Header k)
      else if k = "X-Requested-With" then addValue true "XMLHttpRequest" (req.Header k)
      else if k = "X-Sakura-Bigint-As-Int" then addValue true "1" (req.Header k)
      else if k = "User-Agent" then addValue true c.UserAgent (req.Header k)
      else if k = "Accept-Language" then
        addValue (c.AcceptLanguage != "") c.AcceptLanguage (req.Header k)
      else req.Header k := by
  have hb : (req.SetBasicAuth c.AccessToken c.AccessTokenSecret).Body = req.Body := rfl
  simp only [Client.setHeaders, addIfUnset_Header _ _ _ _ canonical_ContentType,
    addIfUnset_Header _ _ _ _ canonical_AcceptEncoding,
    addIfUnset_Header _ _ _ _ canonical_XRequestedWith,
    addIfUnset_Header _ _ _ _ canonical_XSakuraBigintAsInt,
    addIfUnset_Header _ _ _ _ canonical_UserAgent,
    addIfUnset_Header _ _ _ _ canonical_AcceptLanguage, addIfUnset_Body,
    SetBasicAuth_Header, hb]
  by_cases h1 : k = "Authorization"
  · subst h1; simp
  by_cases h2 : k = "Content-Type"
  · subst h2; simp
  by_cases h3 : k = "Accept-Encoding"
  · subst h3; simp
  by_cases h4 : k = "X-Requested-With"
  · subst h4; simp
  by_cases h5 : k = "X-Sakura-Bigint-As-Int"
  · subst h5; simp
  by_cases h6 : k = "User-Agent"
  · subst h6; simp
  by_cases h7 : k = "Accept-Language"
  · subst h7; simp
  simp [h1, h2, h3, h4, h5, h6, h7]

theorem setHeaders_Body (c : Client) (req : Request) : (c.setHeaders req).Body = req.Body := by
  simp only [Client.setHeaders, addIfUnset_Body]
  rfl

theorem addValue_some_extends (cond : Bool) (value : String) (vs : List String) :
    ∃ extra, addValue cond value (some vs) = some (vs ++ extra) := by
  rcases vs with _ | ⟨v, vs⟩
  · cases cond
    · exact ⟨[], by simp [addValue]⟩
    · exact ⟨[value], by simp [addValue]⟩
  · by_cases h : v = "" ∧ cond = true
    · exact ⟨[value], by simp [addValue, h]⟩
    · exact ⟨[], by simp [addValue, h]⟩

/-- The guarded `Add` is idempotent on a header exactly when it does not meet
an empty first value. -/
theorem addValue_idem_iff (cond : Bool) (value : String) (o : Option (List String))
    (hv : cond = true → value ≠ "") :
    addValue cond value (addValue cond value o) = addValue cond value o
      ↔ ¬ (cond = true ∧ emptyFirst o = true) := by
  cases cond with
  | false => rcases o with _ | ⟨_ | ⟨v, vs⟩⟩ <;> simp [addValue]
  | true =>
    have hne : value ≠ "" := hv rfl
    rcases o with _ | ⟨_ | ⟨v, vs⟩⟩
    · simp [addValue, emptyFirst, hne]
    · simp [addValue, emptyFirst, hne]
    · by_cases h : v = ""
      · subst h
        simp [addValue, emptyFirst]
      · simp [addValue, emptyFirst, h]

/-- The header step applied twice, key by key. -/
theorem setHeaders_twice_Header (c : Client) (req : Request) (k : String) :
    (c.setHeaders (c.setHeaders req)).Header k =
      if k = "Authorization" then
        some ["Basic " ++ basicAuth c.AccessToken c.AccessTokenSecret]
      else if k = "Content-Type" then
        addValue req.Body.isSome "application/json"
          (addValue req.Body.isSome "application/json" (req.Header k))
      else if k = "Accept-Encoding" then
        addValue c.Gzip "gzip" (addValue c.Gzip "gzip" (req.Header k))
      else if k = "X-Requested-With" then
        addValue true "XMLHttpRequest" (addValue true "XMLHttpRequest" (req.Header k))
      else if k = "X-Sakura-Bigint-As-Int" then
        addValue true "1" (addValue true "1" (req.Header k))
      else if k = "User-Agent" then
        addValue true c.UserAgent (addValue true c.UserAgent (req.Header k))
      else if k = "Accept-Language" then
        addValue (c.AcceptLanguage != "") c.AcceptLanguage
          (addValue (c.AcceptLanguage != "") c.AcceptLanguage (req.Header k))
      else req.Header k := by
  rw [setHeaders_Header c (c.setHeaders req) k, setHeaders_Body, setHeaders_Header c req k]
  by_cases h1 : k = "Authorization"
  · subst h1; simp
  by_cases h2 : k = "Content-Type"
  · subst h2; simp
  by_cases h3 : k = "Accept-Encoding"
  · subst h3; simp
  by_cases h4 : k = "X-Requested-With"
  · subst h4; simp
  by_cases h5 : k = "X-Sakura-Bigint-As-Int"
  · subst h5; simp
  by_cases h6 : k = "User-Agent"
  · subst h6; simp
  by_cases h7 : k = "Accept-Language"
  · subst h7; simp
  simp [h1, h2, h3, h4, h5, h6, h7]

/-! ## Lemmas on `init` and `Do` -/

theorem init_AccessToken (d : Deps) (c : Client) : (c.init d).AccessToken = c.AccessToken :=
  rfl

theorem init_AccessTokenSecret (d : Deps) (c : Client) :
    (c.init d).AccessTokenSecret = c.AccessTokenSecret := rfl

theorem init_Gzip (d : Deps) (c : Client) : (c.init d).Gzip = c.Gzip := rfl

theorem init_RequestCustomizer (d : Deps) (c : Client) :
    (c.init d).RequestCustomizer = c.RequestCustomizer := rfl

theorem init_AcceptLanguage (d : Deps) (c : Client) :
    (c.init d).AcceptLanguage = c.AcceptLanguage := by
  have h : (c.init d).AcceptLanguage
      = if c.AcceptLanguage = "" then DefaultAcceptLanguage else c.AcceptLanguage := rfl
  rw [h]
  split_ifs with h1
  · rw [h1]; rfl
  · rfl

theorem DefaultUserAgent_ne_empty (b : Build) : DefaultUserAgent b ≠ "" := by
  intro h
  have h2 := congrArg String.length h
  simp only [DefaultUserAgent, String.length_append] at h2
  have h3 : "go-http/v".length = 9 := by decide
  have h4 : "".length = 0 := by decide
  omega

theorem init_UserAgent_ne_empty (d : Deps) (c : Client) : (c.init d).UserAgent ≠ "" := by
  have h : (c.init d).UserAgent
      = if c.UserAgent = "" then DefaultUserAgent d.build else c.UserAgent := rfl
  rw [h]
  split_ifs with h1
  · exact DefaultUserAgent_ne_empty _
  · exact h1

/-- A second `init` changes nothing. -/
theorem init_idempotent (d : Deps) (c : Client) : (c.init d).init d = c.init d := by
  have hua := init_UserAgent_ne_empty d c
  unfold Client.init at hua ⊢
  simp only at hua ⊢
  congr 1
  · rw [if_neg hua]
  · split_ifs <;> simp_all [DefaultAcceptLanguage]
  · cases h : c.CheckRetryFunc <;> simp
  · split_ifs <;> simp_all [DefaultRetryMax]
  · split_ifs <;> simp_all [DefaultRetryWaitMin, Second]
  · split_ifs <;> simp_all [DefaultRetryWaitMax, Second]

/-- A request whose body, if any, reads to its end is handed on unchanged by
`FromRequest`. -/
theorem FromRequest_ok (r : Request) (hb : ∀ b, r.Body = some b → b.err = none) :
    FromRequest r = .ok r := by
  unfold FromRequest
  rcases hB : r.Body with _ | b
  · rfl
  · simp [hb b hB]

/-- The gzip adapter at the end of `Client.Do`: what `Do` returns for the final
response `resp` of the retrying client. -/
theorem Do_ret_of_call (d : Deps) (c : Client) (req request : Request) (cl : RetryableClient)
    (hcalls : (c.Do d req).calls = [(cl, request)]) :
    (c.Do d req).ret =
      match d.retryDo cl request with
      | .error e => .error e
      | .ok resp =>
        if c.Gzip = true ∧ resp.Header.Get "Content-Encoding" = "gzip" then
          match NewReader resp.Body with
          | .error e => .error e
          | .ok z => .ok { StatusCode := resp.StatusCode, Header := resp.Header, Body := .gzip z }
        else .ok { StatusCode := resp.StatusCode, Header := resp.Header, Body := .raw resp.Body }
    := by
  revert hcalls
  unfold Client.Do
  simp only [init_Gzip]
  generalize (match (c.init d).RequestCustomizer with
    | some customizer => customizer ((c.init d).setHeaders req)
    | none => ((c.init d).setHeaders req, none)) = cu
  rcases cu with ⟨r, _ | e⟩
  · simp only
    cases hfr : FromRequest r with
    | error e => simp
    | ok r2 =>
      simp only
      cases hdo : d.retryDo (c.init d).httpClient r2 with
      | error e =>
        simp only
        intro h
        injection h with h1 _
        injection h1 with h2 h3
        subst h2 h3
        simp [hdo]
      | ok resp =>
        simp only
        by_cases hg : c.Gzip = true ∧ resp.Header.Get "Content-Encoding" = "gzip"
        · simp only [hg, and_self, if_true]
          cases hz : NewReader resp.Body with
          | error e =>
            simp only
            intro h
            injection h with h1 _
            injection h1 with h2 h3
            subst h2 h3
            simp [hdo, hg, hz]
          | ok z =>
            simp only
            intro h
            injection h with h1 _
            injection h1 with h2 h3
            subst h2 h3
            simp [hdo, hg, hz]
        · simp only [hg, if_false]
          intro h
          injection h with h1 _
          injection h1 with h2 h3
          subst h2 h3
          simp [hdo, hg]
  · simp

/-- C1. Cancellation precedence: on a context whose `Err()` is non-nil,
`DefaultCheckRetryFunc` returns `(false, ctx.Err())` for every response (nil or
not, of any status) and every transport error (nil or not). -/
theorem DefaultCheckRetryFunc_cancelled
    (policy : Context → Option Response → Error → Bool × Option Error)
    (ctx : Context) (resp : Option Response) (err : Option Error)
    (hctx : ctx.Err ≠ none) :
    DefaultCheckRetryFunc policy ctx resp err = some (false, ctx.Err) := by
  unfold DefaultCheckRetryFunc
  simp [hctx]

/-- A cancelled context and a 503 response: no retry, the cancellation error is returned. -/
theorem DefaultCheckRetryFunc_cancelled_witness :
    (⟨some Error.canceled⟩ : Context).Err ≠ none ∧
    DefaultCheckRetryFunc (fun _ _ _ => (true, none)) ⟨some Error.canceled⟩
      (some { StatusCode := 503, Body := [] }) none = some (false, some Error.canceled) :=
  ⟨by decide, DefaultCheckRetryFunc_cancelled _ ⟨some Error.canceled⟩ _ _ (by decide)⟩

/-- C2. Status-triggered retry: on a context that is not cancelled and a
response obtained without a transport error, `DefaultCheckRetryFunc` returns
`(true, nil)` exactly when the status code is 0, 503 or 423, and `(false, nil)`
for every other status code. -/
theorem DefaultCheckRetryFunc_status
    (policy : Context → Option Response → Error → Bool × Option Error)
    (ctx : Context) (resp : Response) (hctx : ctx.Err = none) :
    (DefaultCheckRetryFunc policy ctx (some resp) none = some (true, none)
      ↔ resp.StatusCode = 0 ∨ resp.StatusCode = 503 ∨ resp.StatusCode = 423) ∧
    (¬ (resp.StatusCode = 0 ∨ resp.StatusCode = 503 ∨ resp.StatusCode = 423)
      → DefaultCheckRetryFunc policy ctx (some resp) none = some (false, none)) := by
  unfold DefaultCheckRetryFunc StatusServiceUnavailable StatusLocked
  simp only [hctx, ne_eq, not_true_eq_false, if_false]
  by_cases h : resp.StatusCode = 0 ∨ resp.StatusCode = 503 ∨ resp.StatusCode = 423
  · simp [h]
  · simp [h]

/-- A live context: 503 is retried, 404 is not. -/
theorem DefaultCheckRetryFunc_status_witness :
    (({} : Context).Err = none ∧
      DefaultCheckRetryFunc (fun _ _ _ => (true, none)) {}
        (some { StatusCode := 503, Body := [] }) none = some (true, none)) ∧
    DefaultCheckRetryFunc (fun _ _ _ => (true, none)) {}
      (some { StatusCode := 404, Body := [] }) none = some (false, none) :=
  ⟨⟨rfl, (DefaultCheckRetryFunc_status _ {} { StatusCode := 503, Body := [] } rfl).1.mpr
      (by decide)⟩,
   (DefaultCheckRetryFunc_status _ {} { StatusCode := 404, Body := [] } rfl).2 (by decide)⟩

/-- C3, as stated, fails: the customization hook runs after the header step, so
an Authorization header the customizer sets is the one handed to the transport,
not the Basic authentication of the client's credentials. -/
theorem customizer_overrides_authorization :
    (bearerClient.Do sampleDeps {}).calls.map (fun call => call.2.Header.Get "Authorization")
      = ["Bearer x"] ∧
    "Bearer x" ≠ "Basic " ++ basicAuth bearerClient.AccessToken bearerClient.AccessTokenSecret := by
  constructor
  · rfl
  · decide

/-- C3, amended. The customization hook runs after the header step: when the
customizer returns no error (and the body it leaves can be buffered), exactly
one call is made to the retrying client, and the request handed to it is the
customizer's result on the request that already carries Basic authentication and
the default headers. So the customizer's changes reach the transport, and the
Authorization header sent is the Basic authentication of `AccessToken` and
`AccessTokenSecret` (overwriting the caller's value) whenever the customizer
leaves that header as it found it. -/
theorem Do_customizer_runs_after_headers (d : Deps) (c : Client) (req r : Request)
    (f : RequestCustomizer) (hc : c.RequestCustomizer = some f)
    (hf : f ((c.init d).setHeaders req) = (r, none))
    (hb : ∀ b, r.Body = some b → b.err = none) :
    (c.Do d req).calls = [((c.init d).httpClient, r)] ∧
    (r.Header "Authorization" = ((c.init d).setHeaders req).Header "Authorization" →
      r.Header "Authorization"
          = some ["Basic " ++ basicAuth c.AccessToken c.AccessTokenSecret] ∧
        r.Header.Get "Authorization"
          = "Basic " ++ basicAuth c.AccessToken c.AccessTokenSecret) := by
  constructor
  · unfold Client.Do
    simp only [init_RequestCustomizer, hc, hf, FromRequest_ok r hb]
    cases d.retryDo (c.init d).httpClient r with
    | error e => rfl
    | ok resp =>
      simp only
      split
      · cases NewReader resp.Body <;> rfl
      · rfl
  · intro h
    have h2 : r.Header "Authorization"
        = some ["Basic " ++ basicAuth c.AccessToken c.AccessTokenSecret] := by
      rw [h, setHeaders_Header]
      simp [init_AccessToken, init_AccessTokenSecret]
    exact ⟨h2, by simp [Header.Get, canonical_Authorization, h2]⟩

/-- The customizer of `TestClient_Do_RequestCustomizer`: the query it sets reaches the retrying client, with the Basic authentication in place. -/
theorem Do_customizer_runs_after_headers_witness :
    (queryClient.Do sampleDeps {}).calls
      = [((queryClient.init sampleDeps).httpClient,
          { (queryClient.init sampleDeps).setHeaders {} with URL := { RawQuery := "foo=bar" } })] ∧
    ({ (queryClient.init sampleDeps).setHeaders {} with
        URL := { RawQuery := "foo=bar" } } : Request).Header.Get "Authorization"
      = "Basic " ++ basicAuth "token" "secret" :=
  have h := Do_customizer_runs_after_headers sampleDeps queryClient {}
    { (queryClient.init sampleDeps).setHeaders {} with URL := { RawQuery := "foo=bar" } }
    (fun r => ({ r with URL := { r.URL with RawQuery := "foo=bar" } }, none)) rfl rfl
    (by intro b hb; cases hb)
  ⟨h.1, (h.2 rfl).2⟩

/-- C4. Customizer failure aborts before the network: when the
`RequestCustomizer` returns a non-nil error `e`, `Client.Do` returns `(nil, e)`
and makes no call to the retrying client, hence none to the transport. -/
theorem Do_customizer_error (d : Deps) (c : Client) (req r : Request)
    (f : RequestCustomizer) (e : Error) (hc : c.RequestCustomizer = some f)
    (hf : f ((c.init d).setHeaders req) = (r, some e)) :
    (c.Do d req).ret = .error e ∧ (c.Do d req).calls = [] := by
  constructor <;> simp [Client.Do, init_RequestCustomizer, hc, hf]

/-- A failing customizer: its error is returned and no call is made. -/
theorem Do_customizer_error_witness :
    (failingClient.Do sampleDeps {}).ret = .error (Error.other "customizer failed") ∧
    (failingClient.Do sampleDeps {}).calls = [] :=
  Do_customizer_error sampleDeps failingClient {} _ _ _ rfl rfl

/-- C5, as stated, fails: a request whose body is present with zero length and
that has no Content-Type header leaves the header step with Content-Type
`application/json`. -/
theorem contentType_added_for_zero_length_body :
    emptyBodyRequest.Header "Content-Type" = none ∧
    emptyBodyRequest.Body = some { data := [] } ∧
    ((agentClient.init sampleDeps).setHeaders emptyBodyRequest).Header "Content-Type"
      = some ["application/json"] := by
  refine ⟨rfl, rfl, ?_⟩
  rw [setHeaders_Header]
  rfl

/-- C5, amended. On a request that has no Content-Type header, the header step
of `Client.Do` sets Content-Type to `application/json` when the request has a
body (`req.Body != nil`, also one of zero length) and leaves the request without
a Content-Type when the body is absent; a Content-Type the caller already set is
kept: its values stay in place, and nothing is added to them when the first is
not the empty string. -/
theorem setHeaders_ContentType (d : Deps) (c : Client) (req : Request) :
    (req.Header "Content-Type" = none → req.Body ≠ none →
      ((c.init d).setHeaders req).Header "Content-Type" = some ["application/json"]) ∧
    (req.Header "Content-Type" = none → req.Body = none →
      ((c.init d).setHeaders req).Header "Content-Type" = none) ∧
    (∀ vs, req.Header "Content-Type" = some vs →
      ∃ extra, ((c.init d).setHeaders req).Header "Content-Type" = some (vs ++ extra)) ∧
    (∀ v vs, req.Header "Content-Type" = some (v :: vs) → v ≠ "" →
      ((c.init d).setHeaders req).Header "Content-Type" = some (v :: vs)) := by
  refine ⟨?_, ?_, ?_, ?_⟩
  · intro h hb
    rw [setHeaders_Header]
    obtain ⟨b, hb2⟩ := Option.ne_none_iff_exists'.mp hb
    simp [h, hb2, addValue]
  · intro h hb
    rw [setHeaders_Header]
    simp [h, hb, addValue]
  · intro vs h
    rw [setHeaders_Header]
    simp only [String.reduceEq, if_false, if_true, h]
    exact addValue_some_extends _ _ _
  · intro v vs h hv
    rw [setHeaders_Header]
    simp [h, hv, addValue]

/-- A body without Content-Type, no body, and a Content-Type set by the caller. -/
theorem setHeaders_ContentType_witness :
    ((agentClient.init sampleDeps).setHeaders jsonRequest).Header "Content-Type"
      = some ["application/json"] ∧
    ((agentClient.init sampleDeps).setHeaders {}).Header "Content-Type" = none ∧
    ((agentClient.init sampleDeps).setHeaders textRequest).Header "Content-Type"
      = some ["text/plain"] :=
  ⟨(setHeaders_ContentType sampleDeps agentClient jsonRequest).1 rfl (by decide),
   (setHeaders_ContentType sampleDeps agentClient {}).2.1 rfl rfl,
   (setHeaders_ContentType sampleDeps agentClient textRequest).2.2.2 "text/plain" [] rfl
     (by decide)⟩

/-- C7, as stated, fails: on a request whose X-Requested-With header has the
empty string as first value, the header step appends the default each time it
runs, so running it twice does not yield the headers of running it once. -/
theorem setHeaders_twice_differs :
    ((agentClient.init sampleDeps).setHeaders blankMarkerRequest).Header "X-Requested-With"
      = some ["", "XMLHttpRequest"] ∧
    ((agentClient.init sampleDeps).setHeaders
        ((agentClient.init sampleDeps).setHeaders blankMarkerRequest)).Header "X-Requested-With"
      = some ["", "XMLHttpRequest", "XMLHttpRequest"] ∧
    ((agentClient.init sampleDeps).setHeaders
        ((agentClient.init sampleDeps).setHeaders blankMarkerRequest)).Header
      ≠ ((agentClient.init sampleDeps).setHeaders blankMarkerRequest).Header := by
  have h1 : ((agentClient.init sampleDeps).setHeaders blankMarkerRequest).Header
      "X-Requested-With" = some ["", "XMLHttpRequest"] := by
    rw [setHeaders_Header]; rfl
  have h2 : ((agentClient.init sampleDeps).setHeaders
      ((agentClient.init sampleDeps).setHeaders blankMarkerRequest)).Header "X-Requested-With"
      = some ["", "XMLHttpRequest", "XMLHttpRequest"] := by
    rw [setHeaders_Header, h1]; rfl
  refine ⟨h1, h2, fun h => ?_⟩
  have h3 := congrFun h "X-Requested-With"
  rw [h1, h2] at h3
  simp at h3

/-- C7, amended. Applying the header step of `Client.Do` twice yields the same
request headers as applying it once exactly when no header that the step
defaults is bound to values of which the first is the empty string: Content-Type
when the request has a body, Accept-Encoding when Gzip is enabled,
X-Requested-With, X-Sakura-Bigint-As-Int, User-Agent, and Accept-Language when
the client has one configured. -/
theorem setHeaders_idempotent_iff (d : Deps) (c : Client) (req : Request) :
    ((c.init d).setHeaders ((c.init d).setHeaders req)).Header
        = ((c.init d).setHeaders req).Header
      ↔ ¬ (req.Body.isSome = true ∧ emptyFirst (req.Header "Content-Type") = true) ∧
        ¬ (c.Gzip = true ∧ emptyFirst (req.Header "Accept-Encoding") = true) ∧
        emptyFirst (req.Header "X-Requested-With") = false ∧
        emptyFirst (req.Header "X-Sakura-Bigint-As-Int") = false ∧
        emptyFirst (req.Header "User-Agent") = false ∧
        ¬ (c.AcceptLanguage ≠ "" ∧ emptyFirst (req.Header "Accept-Language") = true) := by
  have hua : (true = true) → (c.init d).UserAgent ≠ "" := fun _ => init_UserAgent_ne_empty d c
  have hal : ((c.init d).AcceptLanguage != "") = true → (c.init d).AcceptLanguage ≠ "" := by
    intro h; simpa using h
  have hct : (req.Body.isSome = true) → "application/json" ≠ "" := fun _ => by decide
  have hae : ((c.init d).Gzip = true) → "gzip" ≠ "" := fun _ => by decide
  have hxr : (true = true) → "XMLHttpRequest" ≠ "" := fun _ => by decide
  have hxs : (true = true) → "1" ≠ "" := fun _ => by decide
  constructor
  · intro h
    have hk : ∀ k, ((c.init d).setHeaders ((c.init d).setHeaders req)).Header k
        = ((c.init d).setHeaders req).Header k := fun k => congrFun h k
    have k2 := hk "Content-Type"
    have k3 := hk "Accept-Encoding"
    have k4 := hk "X-Requested-With"
    have k5 := hk "X-Sakura-Bigint-As-Int"
    have k6 := hk "User-Agent"
    have k7 := hk "Accept-Language"
    rw [setHeaders_twice_Header, setHeaders_Header] at k2 k3 k4 k5 k6 k7
    simp only [String.reduceEq, if_false, if_true] at k2 k3 k4 k5 k6 k7
    have e2 := (addValue_idem_iff _ _ _ hct).mp k2
    have e3 := (addValue_idem_iff _ _ _ hae).mp k3
    have e4 := (addValue_idem_iff _ _ _ hxr).mp k4
    have e5 := (addValue_idem_iff _ _ _ hxs).mp k5
    have e6 := (addValue_idem_iff _ _ _ hua).mp k6
    have e7 := (addValue_idem_iff _ _ _ hal).mp k7
    rw [init_AcceptLanguage] at e7
    rw [init_Gzip] at e3
    refine ⟨e2, e3, ?_, ?_, ?_, ?_⟩
    · simpa using e4
    · simpa using e5
    · simpa using e6
    · simpa using e7
  · rintro ⟨e2, e3, e4, e5, e6, e7⟩
    funext k
    rw [setHeaders_twice_Header, setHeaders_Header]
    by_cases h1 : k = "Authorization"
    · subst h1; simp
    by_cases h2 : k = "Content-Type"
    · subst h2
      simp only [String.reduceEq, if_false, if_true]
      exact (addValue_idem_iff _ _ _ hct).mpr e2
    by_cases h3 : k = "Accept-Encoding"
    · subst h3
      simp only [String.reduceEq, if_false, if_true]
      exact (addValue_idem_iff _ _ _ hae).mpr (by rw [init_Gzip]; exact e3)
    by_cases h4 : k = "X-Requested-With"
    · subst h4
      simp only [String.reduceEq, if_false, if_true]
      exact (addValue_idem_iff _ _ _ hxr).mpr (by simp [e4])
    by_cases h5 : k = "X-Sakura-Bigint-As-Int"
    · subst h5
      simp only [String.reduceEq, if_false, if_true]
      exact (addValue_idem_iff _ _ _ hxs).mpr (by simp [e5])
    by_cases h6 : k = "User-Agent"
    · subst h6
      simp only [String.reduceEq, if_false, if_true]
      exact (addValue_idem_iff _ _ _ hua).mpr (by simp [e6])
    by_cases h7 : k = "Accept-Language"
    · subst h7
      simp only [String.reduceEq, if_false, if_true]
      exact (addValue_idem_iff _ _ _ hal).mpr (by rw [init_AcceptLanguage]; simpa using e7)
    simp [h1, h2, h3, h4, h5, h6, h7]

/-- C9, as stated, fails: with Gzip enabled and a final response that declares
gzip, a body that does not start with a gzip header (an empty body, bad magic
bytes) makes `Client.Do` itself return the error of `gzip.NewReader` and no
response. -/
theorem Do_gzip_bad_header_fails_at_once :
    (gzipClient.Do (gzipDeps []) {}).ret = .error Error.eof ∧
    (gzipClient.Do (gzipDeps badMagic) {}).ret = .error Error.gzipHeader ∧
    (gzipClient.Do (gzipDeps badMagic) {}).calls.length = 1 :=
  ⟨rfl, rfl, rfl⟩

/-- C9, amended. With Gzip enabled and a final response that declares
Content-Encoding gzip, `Client.Do` reads the gzip header of the body at once:
when the header is absent or malformed it returns the error of
`gzip.NewReader` and no response; when the header is well formed it returns the
response with a nil error, whatever follows the header, and a failure to
decompress what follows is reported only by a later read of the body. -/
theorem Do_gzip_header_eager_data_lazy (inflate : Bytes → Except Error Bytes) (d : Deps)
    (c : Client) (req request : Request) (cl : RetryableClient) (resp : Response)
    (hcalls : (c.Do d req).calls = [(cl, request)])
    (hresp : d.retryDo cl request = .ok resp)
    (hg : c.Gzip = true) (hce : resp.Header.Get "Content-Encoding" = "gzip") :
    (∀ e, NewReader resp.Body = .error e → (c.Do d req).ret = .error e) ∧
    (∀ z, NewReader resp.Body = .ok z →
      ∃ r, (c.Do d req).ret = .ok r ∧ r.Body = .gzip z ∧
        r.Body.ReadAll inflate = inflate z.rest) := by
  have h := Do_ret_of_call d c req request cl hcalls
  rw [hresp] at h
  simp only at h
  rw [if_pos ⟨hg, hce⟩] at h
  constructor
  · intro e he
    rw [he] at h
    exact h
  · intro z hz
    rw [hz] at h
    exact ⟨_, h, rfl, rfl⟩

/-- Bad magic bytes fail in `Do`; a corrupt block behind a good header fails only when the body is read. -/
theorem Do_gzip_header_eager_data_lazy_witness :
    (gzipClient.Do (gzipDeps badMagic) {}).ret = .error Error.gzipHeader ∧
    (∃ r, (gzipClient.Do (gzipDeps gzippedCorrupt) {}).ret = .ok r ∧
      r.Body = .gzip { Header := { OS := 255 }, rest := gzippedCorrupt.drop 10 } ∧
      r.Body.ReadAll inflateStored = inflateStored (gzippedCorrupt.drop 10)) ∧
    inflateStored (gzippedCorrupt.drop 10) = .error (Error.other "flate: corrupt input") :=
  ⟨(Do_gzip_header_eager_data_lazy inflateStored (gzipDeps badMagic) gzipClient {}
      ((gzipClient.init (gzipDeps badMagic)).setHeaders {})
      (gzipClient.init (gzipDeps badMagic)).httpClient _ rfl rfl rfl rfl).1 _ rfl,
   (Do_gzip_header_eager_data_lazy inflateStored (gzipDeps gzippedCorrupt) gzipClient {}
      ((gzipClient.init (gzipDeps gzippedCorrupt)).setHeaders {})
      (gzipClient.init (gzipDeps gzippedCorrupt)).httpClient _ rfl rfl rfl rfl).2 _ rfl,
   rfl⟩

end GoHttp
